import Mathlib

/-!
Verification development for the `huff_codegen` code-generation module
(`src/huff_codegen/src/lib.rs`): a shallow embedding of the data model,
the macro-to-bytecode expansion engine (`Codegen::recurse_bytecode`), the
deployment assembler (`Codegen::churn`), ABI generation (`Codegen::abigen`)
and artifact export (`Codegen::export`), together with theorems settling
the specification claims about them.

Rust strings are embedded as Lean `String`; `str::len` (UTF-8 byte length)
is embedded as `String.utf8ByteSize`.  Machine bytes (`u8`) are embedded as
`Nat` reduced mod 256 where they are rendered.  The unbounded recursion of
`recurse_bytecode` is embedded with an explicit fuel parameter measuring
call depth: a `none` result means the call tree is deeper than the supplied
fuel, so divergence of the Rust recursion corresponds to the result being
`none` for every fuel.
-/

namespace Huff

/-- Modelled from the spec: the codegen error kinds of `CodegenErrorKind`
(`huff_utils::prelude`, not under `src/`), as enumerated in spec section 7. -/
inductive CodegenErrorKind where
  | MissingAst
  | MissingConstructor
  | MissingConstantDefinition
  | MissingMacroDefinition
  | FailedMacroRecursion
  | InvalidMacroStatement
deriving DecidableEq

/-- Modelled from the spec: a `Byte` unit (`huff_utils::bytecode`, not under
`src/`) is "an atomic, hex-encoded string representing one or more concrete
output bytes"; the source accesses its single string field as `byte.0`. -/
structure Byte where
  val : String
deriving DecidableEq

/-- Modelled from the spec: a constant's value (`huff_utils::ast::ConstVal`,
not under `src/`) is either a literal byte sequence or a free storage
pointer placeholder (whose payload the source ignores). -/
inductive ConstVal where
  | Literal (bytes : List Nat)
  | FreeStoragePointer
deriving DecidableEq

/-- Modelled from the spec: a constant definition (`huff_utils::ast`, not
under `src/`) pairs a unique name with a `ConstVal`; the source reads the
fields `name` and `value`. -/
structure ConstantDefinition where
  name : String
  value : ConstVal
deriving DecidableEq

/-- Modelled from the spec: of the statement kinds (`huff_utils::ast`, not
under `src/`) only macro invocation (carrying the field `macro_name`) is
valid during bytecode construction; every other kind is collapsed into
`Other`, which the source's catch-all match arm rejects. -/
inductive Statement where
  | MacroInvocation (macro_name : String)
  | Other
deriving DecidableEq

/-- Modelled from the spec: an IR item (`huff_utils::bytecode::IRByte`, not
under `src/`) is a raw byte unit, a constant reference, or a nested
statement. -/
inductive IRByte where
  | Byte (b : Byte)
  | Constant (name : String)
  | Statement (s : Statement)
deriving DecidableEq

/-- Modelled from the spec: a macro definition (`huff_utils::ast`, not under
`src/`) is identified by a unique name and owns an ordered IR sequence
describing its body; order dictates output byte order. -/
structure MacroDefinition where
  name : String
  irbytecode : List IRByte
deriving DecidableEq

/-- Modelled from the spec: `MacroDefinition::to_irbytecode` (in
`huff_utils`, not under `src/`) yields the macro's own ordered IR sequence;
the spec gives it no failure case, so it always succeeds. -/
def MacroDefinition.to_irbytecode (m : MacroDefinition) :
    Except CodegenErrorKind (List IRByte) :=
  Except.ok m.irbytecode

/-- Modelled from the spec: a `Contract` syntax tree (`huff_utils::ast`, not
under `src/`) owns an ordered collection of macro definitions and an ordered
collection of constant definitions. -/
structure Contract where
  macros : List MacroDefinition
  constants : List ConstantDefinition
deriving DecidableEq

/-- Modelled from the spec: `Contract::find_macro_by_name` (in `huff_utils`,
not under `src/`) is a linear scan over the macro list returning the first
definition whose name matches, if any. -/
def Contract.find_macro_by_name (c : Contract) (name : String) :
    Option MacroDefinition :=
  (c.macros.filter (fun m => m.name == name)).head?

/-- Modelled from the spec: the output `Artifact` (`huff_utils::artifact`,
not under `src/`) is a record with deployable bytecode, runtime bytecode and
an optional ABI.  The ABI description itself is out of scope, so its type is
a parameter. -/
structure Artifact (Abi : Type) where
  bytecode : String
  runtime : String
  abi : Option Abi
deriving DecidableEq

/-- Modelled from the spec: `Artifact::default()` — every field empty. -/
def Artifact.default {Abi : Type} : Artifact Abi :=
  { bytecode := "", runtime := "", abi := none }

/-- The `Codegen` state struct (`src/huff_codegen/src/lib.rs`, lines 43-53). -/
structure Codegen (Abi : Type) where
  ast : Option Contract
  artifact : Option (Artifact Abi)
  main_bytecode : Option String
  constructor_bytecode : Option String
deriving DecidableEq

/-- `Codegen::new` (`src/huff_codegen/src/lib.rs`, lines 57-59). -/
def Codegen.new {Abi : Type} : Codegen Abi :=
  { ast := none, artifact := none, main_bytecode := none,
    constructor_bytecode := none }

/-- Lowercase hexadecimal digit character for a value `0 ≤ n < 16`,
as produced by Rust's `{:x}` formatting and the `hex` crate. -/
def hexDigit (n : Nat) : Char :=
  if n < 10 then Char.ofNat (48 + n) else Char.ofNat (87 + n)

/-- Big-endian lowercase hexadecimal digit list of `n` (empty for `0`), the
digit production loop of Rust's `{:x}` formatting. -/
def hexDigits (n : Nat) : List Char :=
  if h : n = 0 then [] else hexDigits (n / 16) ++ [hexDigit (n % 16)]
termination_by n
decreasing_by exact Nat.div_lt_self (Nat.pos_of_ne_zero h) (by norm_num)

/-- Rust `format!("{:x}", n)`: lowercase hex rendering of `n`, with `0`
rendered as `"0"`. -/
def natToHex (n : Nat) : String :=
  if n = 0 then "0" else String.mk (hexDigits n)

/-- Zero-pad a string on the left to a minimum width, as Rust's `{:0N}`
format flag does (a longer string is kept unchanged). -/
def zeroPad (width : Nat) (s : String) : String :=
  String.mk (List.replicate (width - s.length) '0') ++ s

/-- Rust `format!("{:0Nx}", n)`: lowercase hex, left zero-padded to a
minimum width of `width` digits. -/
def fmtHex (width n : Nat) : String :=
  zeroPad width (natToHex n)

/-- The `hex` crate's `hex::encode` on a byte slice: each byte becomes
exactly two lowercase hex characters, concatenated in order. -/
def hexEncode (bs : List Nat) : String :=
  String.join (bs.map (fun b => fmtHex 2 (b % 256)))

/-- The body of the `for irbyte in irb.0 ... { match irbyte { ... } }` loop of
`Codegen::recurse_bytecode` (`src/huff_codegen/src/lib.rs`, lines 166-265),
abstracted over the recursive call `expand` (the nested
`self.recurse_bytecode(ir_macro, ast)` at line 234).  The loop walks the IR
items in order, accumulating `final_bytes` and returning the first error
immediately; here the accumulation is expressed by consing/appending onto
the expansion of the remaining items.  An `expand` result of `none` (out of
fuel, see `recurse_bytecode`) propagates as `none`. -/
def expandIR (expand : MacroDefinition → Option (Except CodegenErrorKind (List Byte)))
    (contract : Contract) : List IRByte → Option (Except CodegenErrorKind (List Byte))
  | [] => some (Except.ok [])
  | IRByte.Byte b :: rest =>
    (match expandIR expand contract rest with
     | none => none
     | some (Except.error e) => some (Except.error e)
     | some (Except.ok bs) => some (Except.ok (b :: bs)))
  | IRByte.Constant name :: rest =>
    (match (contract.constants.filter (fun const_def => const_def.name == name)).head? with
     | none => some (Except.error CodegenErrorKind.MissingConstantDefinition)
     | some constant =>
       let push_bytes : String :=
         match constant.value with
         | ConstVal.Literal l =>
           let hex_literal : String := hexEncode l
           fmtHex 2 (95 + hex_literal.utf8ByteSize / 2) ++ hex_literal
         | ConstVal.FreeStoragePointer =>
           let hex_literal : String := hexEncode [0]
           fmtHex 2 (95 + hex_literal.utf8ByteSize / 2) ++ hex_literal
       match expandIR expand contract rest with
       | none => none
       | some (Except.error e) => some (Except.error e)
       | some (Except.ok bs) => some (Except.ok (Byte.mk push_bytes :: bs)))
  | IRByte.Statement s :: rest =>
    (match s with
     | Statement.MacroInvocation mname =>
       (match contract.find_macro_by_name mname with
        | none => some (Except.error CodegenErrorKind.MissingMacroDefinition)
        | some target =>
          match expand target with
          | none => none
          | some (Except.error _) =>
            some (Except.error CodegenErrorKind.FailedMacroRecursion)
          | some (Except.ok recursed_bytecode) =>
            match expandIR expand contract rest with
            | none => none
            | some (Except.error e) => some (Except.error e)
            | some (Except.ok bs) => some (Except.ok (recursed_bytecode ++ bs)))
     | Statement.Other => some (Except.error CodegenErrorKind.InvalidMacroStatement))

/-- `Codegen::recurse_bytecode` (`src/huff_codegen/src/lib.rs`, lines
150-268).  The Rust function recurses without any cycle protection, so the
embedding carries a fuel parameter bounding the depth of the recursion
tree: `none` means the recursion is deeper than `fuel` (in particular the
Rust code diverges exactly when the result is `none` for every fuel).  The
`self` state and the `ast` parameter only supply the contract tree (via
`graceful_ast_grab`), embedded here as the `contract` argument, which every
nested call receives unchanged. -/
def recurse_bytecode : Nat → MacroDefinition → Contract →
    Option (Except CodegenErrorKind (List Byte))
  | 0, _, _ => none
  | fuel + 1, macro_def, contract =>
    match macro_def.to_irbytecode with
    | Except.error e => some (Except.error e)
    | Except.ok irb =>
      expandIR (fun m => recurse_bytecode fuel m contract) contract irb

/-- The expansion of an IR item list at fuel `f`: `expandIR` with the
recursive call instantiated, so that
`recurse_bytecode (f+1) m c = recurse_items f c m.irbytecode`. -/
def recurse_items (f : Nat) (c : Contract) (items : List IRByte) :
    Option (Except CodegenErrorKind (List Byte)) :=
  expandIR (fun m => recurse_bytecode f m c) c items

/-- `Codegen::churn` (`src/huff_codegen/src/lib.rs`, lines 277-311).
The external ABI encoder `ethers::abi::encode` applied to a single token is
passed in as the parameter `abi_encode`, producing that token's encoded
bytes.  Returns the updated `Codegen` state together with the `Result`
value. -/
def churn {Abi Token : Type} (abi_encode : Token → List Nat)
    (cg : Codegen Abi) (args : List Token)
    (main_bytecode constructor_bytecode : String) :
    Codegen Abi × Except CodegenErrorKind (Artifact Abi) :=
  let artifact : Artifact Abi :=
    match cg.artifact with
    | some art => art
    | none => Artifact.default
  let contract_length := main_bytecode.utf8ByteSize / 2
  let constructor_length := constructor_bytecode.utf8ByteSize / 2
  let contract_size := fmtHex 4 contract_length
  let contract_code_offset := fmtHex 4 (13 + constructor_length)
  let encoded : List (List Nat) := args.map (fun tok => abi_encode tok)
  let hex_args : List String := encoded.map (fun tok => hexEncode tok)
  let constructor_args := String.join hex_args
  let bootstrap_code :=
    "61" ++ contract_size ++ "8061" ++ contract_code_offset ++ "6000396000f3"
  let constructor_code := constructor_bytecode ++ bootstrap_code
  let artifact :=
    { artifact with
      bytecode := constructor_code ++ main_bytecode ++ constructor_args,
      runtime := main_bytecode }
  ({ cg with artifact := some artifact }, Except.ok artifact)

/-- `Codegen::export` (`src/huff_codegen/src/lib.rs`, lines 320-331).
Serialization (`serde_json::to_string`) is the parameter `serialize`; the
file-system write is embedded as the first component of the result: `some s`
means the serialized artifact `s` was written, `none` means no write
happened. -/
def exportArtifact {Abi : Type} (serialize : Artifact Abi → String)
    (cg : Codegen Abi) : Option String × Except CodegenErrorKind Unit :=
  match cg.artifact with
  | some art => (some (serialize art), Except.ok ())
  | none => (none, Except.ok ())

/-- `Codegen::abigen` (`src/huff_codegen/src/lib.rs`, lines 342-368).
The conversion `Contract -> Abi` (an `Into` impl in `huff_utils`, out of
scope) is the parameter `toAbi`.  Returns the updated state, the optional
file write (as in `exportArtifact`) and the `Result` value. -/
def abigen {Abi : Type} (toAbi : Contract → Abi)
    (serialize : Artifact Abi → String) (cg : Codegen Abi)
    (ast : Contract) (output : Option String) :
    Codegen Abi × Option String × Except CodegenErrorKind Abi :=
  let abi := toAbi ast
  let cg1 : Codegen Abi :=
    match cg.artifact with
    | some artifact => { cg with artifact := some { artifact with abi := some abi } }
    | none =>
      { cg with artifact := some { (Artifact.default : Artifact Abi) with abi := some abi } }
  let written : Option String :=
    match output with
    | some _ => (exportArtifact serialize cg1).1
    | none => none
  (cg1, written, Except.ok abi)

/-! ### Specification-side definitions

These definitions transcribe the *spec's* wording (big-endian hex rendering
zero-padded to exactly four digits, hex-encoded input strings, the shape of
an invocation cycle) so that the claims can be stated against them and
compared with the source-derived definitions above. -/

/-- The spec's "big-endian hex zero-padded to exactly 4 hex digits": the
four hex digits of `n mod 65536`, most significant first.  For `n < 65536`
this is the unique 4-digit big-endian hex rendering of `n`. -/
def hex4spec (n : Nat) : String :=
  String.mk [hexDigit (n / 4096 % 16), hexDigit (n / 256 % 16),
    hexDigit (n / 16 % 16), hexDigit (n % 16)]

/-- The 22 ASCII hexadecimal digit characters. -/
def hexChars : List Char :=
  "0123456789abcdefABCDEF".data

/-- A hex-encoded input string: every character is a hexadecimal digit. -/
def isHexString (s : String) : Prop :=
  ∀ c ∈ s.data, c ∈ hexChars

/-- Decidability of `isHexString`, so witnesses can check it by `decide`. -/
instance (s : String) : Decidable (isHexString s) :=
  List.decidableBAll (fun c => c ∈ hexChars) s.data

/-- The direct-invocation relation induced by a contract: `invokesIn c m' m`
holds when the body of `m` contains a macro-invocation statement that
`find_macro_by_name` resolves to `m'`.  A macro whose reachable invocation
graph is acyclic is exactly one that is `Acc (invokesIn c)`. -/
def invokesIn (c : Contract) (m' m : MacroDefinition) : Prop :=
  ∃ name, IRByte.Statement (Statement.MacroInvocation name) ∈ m.irbytecode ∧
    c.find_macro_by_name name = some m'

/-- `leadsTo c items m'` : the item list reaches, after raw byte items only,
a macro invocation that resolves to `m'`. -/
def leadsTo (c : Contract) (items : List IRByte) (m' : MacroDefinition) : Prop :=
  ∃ (bs : List Byte) (name : String) (rest : List IRByte), items =
      bs.map IRByte.Byte ++ IRByte.Statement (Statement.MacroInvocation name) :: rest ∧
    c.find_macro_by_name name = some m'

/-- The artifact value that `churn` stores and returns, as a function of its
inputs: the deployment layout of spec section 4.3 with the Rust byte-length
computation, keeping the previous artifact's ABI (or `none` for a fresh
artifact). -/
def churnOut {Abi Token : Type} (abi_encode : Token → List Nat) (cg : Codegen Abi)
    (args : List Token) (main_bytecode constructor_bytecode : String) : Artifact Abi :=
  { bytecode := constructor_bytecode ++ "61" ++ fmtHex 4 (main_bytecode.utf8ByteSize / 2) ++
      "8061" ++ fmtHex 4 (13 + constructor_bytecode.utf8ByteSize / 2) ++ "6000396000f3" ++
      main_bytecode ++ String.join (args.map (fun t => hexEncode (abi_encode t))),
    runtime := main_bytecode,
    abi := (cg.artifact.getD Artifact.default).abi }

/-! ### Concrete fixtures used by witnesses and counterexamples -/

/-- A leaf macro with a single raw byte, invoked by `fixCaller`. -/
def fixTarget : MacroDefinition :=
  { name := "M", irbytecode := [IRByte.Byte ⟨"01"⟩] }

/-- A macro whose IR is `[byteA, invoke M, byteB]`. -/
def fixCaller : MacroDefinition :=
  { name := "A", irbytecode := [IRByte.Byte ⟨"aa"⟩,
      IRByte.Statement (Statement.MacroInvocation "M"), IRByte.Byte ⟨"bb"⟩] }

/-- Tree holding `fixTarget` and `fixCaller`. -/
def fixTree : Contract := { macros := [fixTarget, fixCaller], constants := [] }

/-- Tree with the literal constants `0x2a` (one byte) and `0xBEEF` (two
bytes). -/
def constTree : Contract :=
  { macros := [],
    constants := [⟨"ANSWER", ConstVal.Literal [42]⟩,
                  ⟨"COW", ConstVal.Literal [190, 239]⟩] }

/-- Tree with a free-storage-pointer constant declared after a literal. -/
def fspTree : Contract :=
  { macros := [],
    constants := [⟨"A", ConstVal.Literal [7]⟩, ⟨"P", ConstVal.FreeStoragePointer⟩] }

/-- A macro whose body is an invalid (non-invocation) statement, so its own
expansion fails with `InvalidMacroStatement`. -/
def badStmtDef : MacroDefinition :=
  { name := "T", irbytecode := [IRByte.Statement Statement.Other] }

/-- Tree holding only `badStmtDef`. -/
def badStmtTree : Contract := { macros := [badStmtDef], constants := [] }

/-- Macro `A`: invokes the missing macro `NONE`, then invokes `B`.  `A` and
`B` invoke each other, yet expansion of `A` fails fast on `NONE`. -/
def guardedCycA : MacroDefinition :=
  { name := "A", irbytecode := [IRByte.Statement (Statement.MacroInvocation "NONE"),
      IRByte.Statement (Statement.MacroInvocation "B")] }

/-- Macro `B` of the guarded cycle: invokes `A` directly. -/
def guardedCycB : MacroDefinition :=
  { name := "B", irbytecode := [IRByte.Statement (Statement.MacroInvocation "A")] }

/-- Tree holding the mutually-invoking `guardedCycA` and `guardedCycB` (and
no macro named `NONE`). -/
def guardedCycTree : Contract :=
  { macros := [guardedCycA, guardedCycB], constants := [] }

/-- Macro `P` of a pure two-cycle: its body is exactly an invocation of
`Q`. -/
def pureCycP : MacroDefinition :=
  { name := "P", irbytecode := [IRByte.Statement (Statement.MacroInvocation "Q")] }

/-- Macro `Q` of the pure two-cycle: a raw byte, then an invocation of
`P`. -/
def pureCycQ : MacroDefinition :=
  { name := "Q", irbytecode := [IRByte.Byte ⟨"60"⟩,
      IRByte.Statement (Statement.MacroInvocation "P")] }

/-- Tree holding the pure two-cycle `P ↔ Q`. -/
def pureCycTree : Contract := { macros := [pureCycP, pureCycQ], constants := [] }

/-- A 428-hex-character (214-byte) runtime bytecode string. -/
def runtime428 : String := String.mk (List.replicate 428 '0')

/-- A 131046-hex-character (65523-byte) constructor bytecode string: the
smallest byte length at which `13 + constructorLength` no longer fits in
four hex digits. -/
def hugeConstructor : String := String.mk (List.replicate 131046 '0')

/-- A one-character, two-UTF-8-byte string (`é`), distinguishing character
count from Rust's `str::len` byte count. -/
def twoByteChar : String := String.mk [Char.ofNat 233]

/-! ### Helper lemmas: hex rendering -/

theorem mk_append (as bs : List Char) :
    String.mk as ++ String.mk bs = String.mk (as ++ bs) := rfl

theorem hexDigits_zero : hexDigits 0 = [] := by
  unfold hexDigits
  simp

theorem hexDigit_zero : hexDigit 0 = '0' := by decide

theorem hexDigits_step (n : Nat) (h : n ≠ 0) :
    hexDigits n = hexDigits (n / 16) ++ [hexDigit (n % 16)] := by
  conv_lhs => unfold hexDigits
  simp [h]

theorem hexDigits_lt16 (n : Nat) (h0 : n ≠ 0) (h : n < 16) :
    hexDigits n = [hexDigit n] := by
  rw [hexDigits_step n h0, Nat.div_eq_of_lt h, hexDigits_zero, Nat.mod_eq_of_lt h]
  rfl

theorem hexDigits_lt256 (n : Nat) (h0 : 16 ≤ n) (h : n < 256) :
    hexDigits n = [hexDigit (n / 16), hexDigit (n % 16)] := by
  rw [hexDigits_step n (by omega), hexDigits_lt16 (n / 16) (by omega) (by omega)]
  rfl

theorem hexDigits_lt4096 (n : Nat) (h0 : 256 ≤ n) (h : n < 4096) :
    hexDigits n = [hexDigit (n / 256), hexDigit (n / 16 % 16), hexDigit (n % 16)] := by
  rw [hexDigits_step n (by omega), hexDigits_lt256 (n / 16) (by omega) (by omega)]
  rw [Nat.div_div_eq_div_mul]
  rfl

theorem hexDigits_lt65536 (n : Nat) (h0 : 4096 ≤ n) (h : n < 65536) :
    hexDigits n = [hexDigit (n / 4096), hexDigit (n / 256 % 16),
      hexDigit (n / 16 % 16), hexDigit (n % 16)] := by
  rw [hexDigits_step n (by omega), hexDigits_lt4096 (n / 16) (by omega) (by omega)]
  rw [Nat.div_div_eq_div_mul, Nat.div_div_eq_div_mul]
  norm_num

theorem fmtHex2_eq (n : Nat) (h : n < 256) :
    fmtHex 2 n = String.mk [hexDigit (n / 16), hexDigit (n % 16)] := by
  rcases Nat.eq_zero_or_pos n with h0 | h0
  · subst h0
    decide
  rcases Nat.lt_or_ge n 16 with h16 | h16
  · have e : hexDigits n = [hexDigit n] := hexDigits_lt16 n (by omega) h16
    have ed : n / 16 = 0 := by omega
    have em : n % 16 = n := by omega
    simp only [fmtHex, natToHex, zeroPad, if_neg (by omega : ¬n = 0), e, ed, em]
    rw [mk_append]
    norm_num
    simp [List.replicate, hexDigit_zero]
  · have e : hexDigits n = [hexDigit (n / 16), hexDigit (n % 16)] :=
      hexDigits_lt256 n h16 h
    simp only [fmtHex, natToHex, zeroPad, if_neg (by omega : ¬n = 0), e]
    rw [mk_append]
    norm_num

theorem fmtHex4_eq (n : Nat) (h : n < 65536) : fmtHex 4 n = hex4spec n := by
  rcases Nat.eq_zero_or_pos n with h0 | h0
  · subst h0
    decide
  rcases Nat.lt_or_ge n 16 with h16 | h16
  · have e : hexDigits n = [hexDigit n] := hexDigits_lt16 n (by omega) h16
    have e3 : n / 4096 % 16 = 0 := by omega
    have e2 : n / 256 % 16 = 0 := by omega
    have e1 : n / 16 % 16 = 0 := by omega
    have e0 : n % 16 = n := by omega
    simp only [fmtHex, natToHex, zeroPad, if_neg (by omega : ¬n = 0), e, hex4spec,
      e3, e2, e1, e0]
    rw [mk_append]
    norm_num
    simp [List.replicate, hexDigit_zero]
  rcases Nat.lt_or_ge n 256 with h256 | h256
  · have e : hexDigits n = [hexDigit (n / 16), hexDigit (n % 16)] :=
      hexDigits_lt256 n h16 h256
    have e3 : n / 4096 % 16 = 0 := by omega
    have e2 : n / 256 % 16 = 0 := by omega
    have e1 : n / 16 % 16 = n / 16 := by omega
    simp only [fmtHex, natToHex, zeroPad, if_neg (by omega : ¬n = 0), e, hex4spec,
      e3, e2, e1]
    rw [mk_append]
    norm_num
    simp [List.replicate, hexDigit_zero]
  rcases Nat.lt_or_ge n 4096 with h4096 | h4096
  · have e : hexDigits n = [hexDigit (n / 256), hexDigit (n / 16 % 16), hexDigit (n % 16)] :=
      hexDigits_lt4096 n h256 h4096
    have e3 : n / 4096 % 16 = 0 := by omega
    have e2 : n / 256 % 16 = n / 256 := by omega
    simp only [fmtHex, natToHex, zeroPad, if_neg (by omega : ¬n = 0), e, hex4spec,
      e3, e2]
    rw [mk_append]
    norm_num
    simp [List.replicate, hexDigit_zero]
  · have e : hexDigits n = [hexDigit (n / 4096), hexDigit (n / 256 % 16),
        hexDigit (n / 16 % 16), hexDigit (n % 16)] := hexDigits_lt65536 n h4096 h
    have e3 : n / 4096 % 16 = n / 4096 := by omega
    simp only [fmtHex, natToHex, zeroPad, if_neg (by omega : ¬n = 0), e, hex4spec, e3]
    rw [mk_append]
    norm_num

/-! ### Helper lemmas: UTF-8 byte lengths of hex strings -/

theorem hexDigit_utf8Size (n : Nat) (h : n < 16) : (hexDigit n).utf8Size = 1 := by
  interval_cases n <;> decide

theorem hexChars_utf8Size : ∀ c ∈ hexChars, c.utf8Size = 1 := by decide

theorem isHexString_utf8ByteSize (s : String) (h : isHexString s) :
    s.utf8ByteSize = s.length := by
  obtain ⟨data⟩ := s
  simp only [String.utf8ByteSize_mk, String.length_mk]
  simp only [isHexString, String.data] at h
  induction data with
  | nil => rfl
  | cons c cs ih =>
    rw [String.utf8Len_cons, List.length_cons,
      hexChars_utf8Size c (h c (List.mem_cons_self c cs)),
      ih (fun c hc => h c (List.mem_cons_of_mem _ hc))]

theorem replicate_zero_isHex (k : Nat) :
    isHexString (String.mk (List.replicate k '0')) := by
  intro c hc
  rw [List.eq_of_mem_replicate hc]
  decide

theorem replicate_utf8ByteSize (k : Nat) :
    (String.mk (List.replicate k '0')).utf8ByteSize = k := by
  rw [isHexString_utf8ByteSize _ (replicate_zero_isHex k)]
  simp

theorem fmtHex2_utf8ByteSize (n : Nat) (h : n < 256) :
    (fmtHex 2 n).utf8ByteSize = 2 := by
  rw [fmtHex2_eq n h]
  simp only [String.utf8ByteSize_mk, String.utf8Len_cons, String.utf8Len_nil]
  rw [hexDigit_utf8Size (n / 16) (by omega), hexDigit_utf8Size (n % 16) (by omega)]

theorem hexEncode_utf8ByteSize (bs : List Nat) :
    (hexEncode bs).utf8ByteSize = 2 * bs.length := by
  induction bs with
  | nil => rfl
  | cons b rest ih =>
    simp only [hexEncode, List.map_cons, String.join_eq, String.utf8ByteSize_mk,
      List.flatten, String.utf8Len_append] at ih ⊢
    have hb : String.utf8Len (fmtHex 2 (b % 256)).data = 2 := by
      rw [fmtHex2_eq (b % 256) (Nat.mod_lt b (by norm_num))]
      simp only [String.utf8Len_cons, String.utf8Len_nil]
      rw [hexDigit_utf8Size _ (by omega), hexDigit_utf8Size _ (by omega)]
    rw [List.length_cons]
    omega

/-! ### Helper lemmas: equations for the expansion engine -/

theorem recurse_bytecode_zero (m : MacroDefinition) (c : Contract) :
    recurse_bytecode 0 m c = none := rfl

theorem recurse_bytecode_succ (f : Nat) (m : MacroDefinition) (c : Contract) :
    recurse_bytecode (f + 1) m c = recurse_items f c m.irbytecode := rfl

theorem expandIR_nil (expand : MacroDefinition → Option (Except CodegenErrorKind (List Byte)))
    (c : Contract) : expandIR expand c [] = some (Except.ok []) := rfl

theorem expandIR_byte (expand : MacroDefinition → Option (Except CodegenErrorKind (List Byte)))
    (c : Contract) (b : Byte) (rest : List IRByte) :
    expandIR expand c (IRByte.Byte b :: rest) =
      (expandIR expand c rest).map (fun r => r.map (fun bs => b :: bs)) := by
  cases h : expandIR expand c rest with
  | none => simp only [expandIR, h]; rfl
  | some r =>
    cases r with
    | error e => simp only [expandIR, h]; rfl
    | ok bs => simp only [expandIR, h]; rfl

theorem expandIR_constant_missing
    (expand : MacroDefinition → Option (Except CodegenErrorKind (List Byte)))
    (c : Contract) (name : String) (rest : List IRByte)
    (h : (c.constants.filter (fun const_def => const_def.name == name)).head? = none) :
    expandIR expand c (IRByte.Constant name :: rest) =
      some (Except.error CodegenErrorKind.MissingConstantDefinition) := by
  simp only [expandIR, h]

theorem expandIR_constant_literal
    (expand : MacroDefinition → Option (Except CodegenErrorKind (List Byte)))
    (c : Contract) (name : String) (rest : List IRByte)
    (cd : ConstantDefinition) (l : List Nat)
    (h : (c.constants.filter (fun const_def => const_def.name == name)).head? = some cd)
    (hv : cd.value = ConstVal.Literal l) :
    expandIR expand c (IRByte.Constant name :: rest) =
      (expandIR expand c rest).map (fun r => r.map (fun bs =>
        Byte.mk (fmtHex 2 (95 + (hexEncode l).utf8ByteSize / 2) ++ hexEncode l) :: bs)) := by
  cases hrest : expandIR expand c rest with
  | none => simp only [expandIR, h, hv, hrest]; rfl
  | some r =>
    cases r with
    | error e => simp only [expandIR, h, hv, hrest]; rfl
    | ok bs => simp only [expandIR, h, hv, hrest]; rfl

theorem expandIR_constant_fsp
    (expand : MacroDefinition → Option (Except CodegenErrorKind (List Byte)))
    (c : Contract) (name : String) (rest : List IRByte)
    (cd : ConstantDefinition)
    (h : (c.constants.filter (fun const_def => const_def.name == name)).head? = some cd)
    (hv : cd.value = ConstVal.FreeStoragePointer) :
    expandIR expand c (IRByte.Constant name :: rest) =
      (expandIR expand c rest).map (fun r => r.map (fun bs =>
        Byte.mk (fmtHex 2 (95 + (hexEncode [0]).utf8ByteSize / 2) ++ hexEncode [0]) :: bs)) := by
  cases hrest : expandIR expand c rest with
  | none => simp only [expandIR, h, hv, hrest]; rfl
  | some r =>
    cases r with
    | error e => simp only [expandIR, h, hv, hrest]; rfl
    | ok bs => simp only [expandIR, h, hv, hrest]; rfl

theorem expandIR_inv_missing
    (expand : MacroDefinition → Option (Except CodegenErrorKind (List Byte)))
    (c : Contract) (mname : String) (rest : List IRByte)
    (h : c.find_macro_by_name mname = none) :
    expandIR expand c (IRByte.Statement (Statement.MacroInvocation mname) :: rest) =
      some (Except.error CodegenErrorKind.MissingMacroDefinition) := by
  simp only [expandIR, h]

theorem expandIR_inv_none
    (expand : MacroDefinition → Option (Except CodegenErrorKind (List Byte)))
    (c : Contract) (mname : String) (rest : List IRByte) (target : MacroDefinition)
    (h : c.find_macro_by_name mname = some target)
    (he : expand target = none) :
    expandIR expand c (IRByte.Statement (Statement.MacroInvocation mname) :: rest) =
      none := by
  simp only [expandIR, h, he]

theorem expandIR_inv_error
    (expand : MacroDefinition → Option (Except CodegenErrorKind (List Byte)))
    (c : Contract) (mname : String) (rest : List IRByte) (target : MacroDefinition)
    (e : CodegenErrorKind)
    (h : c.find_macro_by_name mname = some target)
    (he : expand target = some (Except.error e)) :
    expandIR expand c (IRByte.Statement (Statement.MacroInvocation mname) :: rest) =
      some (Except.error CodegenErrorKind.FailedMacroRecursion) := by
  simp only [expandIR, h, he]

theorem expandIR_inv_ok
    (expand : MacroDefinition → Option (Except CodegenErrorKind (List Byte)))
    (c : Contract) (mname : String) (rest : List IRByte) (target : MacroDefinition)
    (recursed : List Byte)
    (h : c.find_macro_by_name mname = some target)
    (he : expand target = some (Except.ok recursed)) :
    expandIR expand c (IRByte.Statement (Statement.MacroInvocation mname) :: rest) =
      (expandIR expand c rest).map (fun r => r.map (fun bs => recursed ++ bs)) := by
  cases hrest : expandIR expand c rest with
  | none => simp only [expandIR, h, he, hrest]; rfl
  | some r =>
    cases r with
    | error e2 => simp only [expandIR, h, he, hrest]; rfl
    | ok bs => simp only [expandIR, h, he, hrest]; rfl

theorem expandIR_other
    (expand : MacroDefinition → Option (Except CodegenErrorKind (List Byte)))
    (c : Contract) (rest : List IRByte) :
    expandIR expand c (IRByte.Statement Statement.Other :: rest) =
      some (Except.error CodegenErrorKind.InvalidMacroStatement) := by
  simp only [expandIR]

/-! ### Helper lemmas: fuel monotonicity and termination -/

theorem expandIR_mono
    (e1 e2 : MacroDefinition → Option (Except CodegenErrorKind (List Byte)))
    (c : Contract)
    (hmono : ∀ m r, e1 m = some r → e2 m = some r) :
    ∀ (items : List IRByte) (r : Except CodegenErrorKind (List Byte)),
      expandIR e1 c items = some r → expandIR e2 c items = some r := by
  intro items
  induction items with
  | nil => intro r h; exact h
  | cons item rest ih =>
    intro r h
    match item with
    | IRByte.Byte b =>
      rw [expandIR_byte] at h ⊢
      cases hrest : expandIR e1 c rest with
      | none => rw [hrest] at h; simp at h
      | some r2 =>
        rw [hrest] at h
        rw [ih r2 hrest]
        exact h
    | IRByte.Constant name =>
      cases hlook : (c.constants.filter (fun const_def => const_def.name == name)).head? with
      | none =>
        rw [expandIR_constant_missing e1 c name rest hlook] at h
        rw [expandIR_constant_missing e2 c name rest hlook]
        exact h
      | some cd =>
        cases hv : cd.value with
        | Literal l =>
          rw [expandIR_constant_literal e1 c name rest cd l hlook hv] at h
          rw [expandIR_constant_literal e2 c name rest cd l hlook hv]
          cases hrest : expandIR e1 c rest with
          | none => rw [hrest] at h; simp at h
          | some r2 =>
            rw [hrest] at h
            rw [ih r2 hrest]
            exact h
        | FreeStoragePointer =>
          rw [expandIR_constant_fsp e1 c name rest cd hlook hv] at h
          rw [expandIR_constant_fsp e2 c name rest cd hlook hv]
          cases hrest : expandIR e1 c rest with
          | none => rw [hrest] at h; simp at h
          | some r2 =>
            rw [hrest] at h
            rw [ih r2 hrest]
            exact h
    | IRByte.Statement (Statement.MacroInvocation mname) =>
      cases hlook : c.find_macro_by_name mname with
      | none =>
        rw [expandIR_inv_missing e1 c mname rest hlook] at h
        rw [expandIR_inv_missing e2 c mname rest hlook]
        exact h
      | some target =>
        cases htgt : e1 target with
        | none => rw [expandIR_inv_none e1 c mname rest target hlook htgt] at h; simp at h
        | some rt =>
          cases rt with
          | error e =>
            rw [expandIR_inv_error e1 c mname rest target e hlook htgt] at h
            rw [expandIR_inv_error e2 c mname rest target e hlook (hmono target _ htgt)]
            exact h
          | ok recursed =>
            rw [expandIR_inv_ok e1 c mname rest target recursed hlook htgt] at h
            rw [expandIR_inv_ok e2 c mname rest target recursed hlook (hmono target _ htgt)]
            cases hrest : expandIR e1 c rest with
            | none => rw [hrest] at h; simp at h
            | some r2 =>
              rw [hrest] at h
              rw [ih r2 hrest]
              exact h
    | IRByte.Statement Statement.Other =>
      rw [expandIR_other] at h ⊢
      exact h

theorem recurse_bytecode_mono (f f' : Nat) (hle : f ≤ f') :
    ∀ (m : MacroDefinition) (c : Contract) (r : Except CodegenErrorKind (List Byte)),
      recurse_bytecode f m c = some r → recurse_bytecode f' m c = some r := by
  induction f generalizing f' with
  | zero => intro m c r h; rw [recurse_bytecode_zero] at h; simp at h
  | succ f ih =>
    intro m c r h
    obtain ⟨f2, rfl⟩ : ∃ f2, f' = f2 + 1 := ⟨f' - 1, by omega⟩
    rw [recurse_bytecode_succ] at h ⊢
    exact expandIR_mono _ _ c (fun m2 r2 h2 => ih f2 (by omega) m2 c r2 h2)
      m.irbytecode r h

theorem recurse_items_mono (f f' : Nat) (hle : f ≤ f') (c : Contract)
    (items : List IRByte) (r : Except CodegenErrorKind (List Byte))
    (h : recurse_items f c items = some r) : recurse_items f' c items = some r :=
  expandIR_mono _ _ c
    (fun m2 r2 h2 => recurse_bytecode_mono f f' hle m2 c r2 h2) items r h

theorem recurse_items_terminates (c : Contract) (items : List IRByte)
    (h : ∀ (name : String) ( target : MacroDefinition),
      IRByte.Statement (Statement.MacroInvocation name) ∈ items →
      c.find_macro_by_name name = some target →
      ∃ fuel, (recurse_bytecode fuel target c).isSome) :
    ∃ f, (recurse_items f c items).isSome := by
  induction items with
  | nil => exact ⟨0, rfl⟩
  | cons item rest ih =>
    have hrest : ∃ f, (recurse_items f c rest).isSome :=
      ih (fun name target hmem hfind =>
        h name target (List.mem_cons_of_mem _ hmem) hfind)
    match item with
    | IRByte.Byte b =>
      obtain ⟨f, hf⟩ := hrest
      refine ⟨f, ?_⟩
      show (expandIR _ c (IRByte.Byte b :: rest)).isSome
      rw [expandIR_byte]
      simpa using hf
    | IRByte.Constant name =>
      cases hlook : (c.constants.filter (fun const_def => const_def.name == name)).head? with
      | none =>
        refine ⟨0, ?_⟩
        show (expandIR _ c (IRByte.Constant name :: rest)).isSome
        rw [expandIR_constant_missing _ c name rest hlook]
        rfl
      | some cd =>
        obtain ⟨f, hf⟩ := hrest
        refine ⟨f, ?_⟩
        show (expandIR _ c (IRByte.Constant name :: rest)).isSome
        cases hv : cd.value with
        | Literal l =>
          rw [expandIR_constant_literal _ c name rest cd l hlook hv]
          simpa using hf
        | FreeStoragePointer =>
          rw [expandIR_constant_fsp _ c name rest cd hlook hv]
          simpa using hf
    | IRByte.Statement (Statement.MacroInvocation mname) =>
      cases hlook : c.find_macro_by_name mname with
      | none =>
        refine ⟨0, ?_⟩
        show (expandIR _ c (IRByte.Statement (Statement.MacroInvocation mname) :: rest)).isSome
        rw [expandIR_inv_missing _ c mname rest hlook]
        rfl
      | some target =>
        obtain ⟨f1, h1⟩ := h mname target (List.mem_cons_self _ _) hlook
        obtain ⟨f2, h2⟩ := hrest
        obtain ⟨r1, hr1⟩ := Option.isSome_iff_exists.mp h1
        obtain ⟨r2, hr2⟩ := Option.isSome_iff_exists.mp h2
        have hr1m : recurse_bytecode (max f1 f2) target c = some r1 :=
          recurse_bytecode_mono f1 (max f1 f2) (Nat.le_max_left f1 f2) target c r1 hr1
        have hr2m : recurse_items (max f1 f2) c rest = some r2 :=
          recurse_items_mono f2 (max f1 f2) (Nat.le_max_right f1 f2) c rest r2 hr2
        refine ⟨max f1 f2, ?_⟩
        show (expandIR _ c (IRByte.Statement (Statement.MacroInvocation mname) :: rest)).isSome
        cases r1 with
        | error e =>
          rw [expandIR_inv_error _ c mname rest target e hlook hr1m]
          rfl
        | ok recursed =>
          rw [expandIR_inv_ok _ c mname rest target recursed hlook hr1m]
          have : expandIR (fun m => recurse_bytecode (max f1 f2) m c) c rest = some r2 := hr2m
          rw [this]
          rfl
    | IRByte.Statement Statement.Other =>
      refine ⟨0, ?_⟩
      show (expandIR _ c (IRByte.Statement Statement.Other :: rest)).isSome
      rw [expandIR_other]
      rfl

theorem recurse_terminates_of_acc (c : Contract) (m : MacroDefinition)
    (h : Acc (invokesIn c) m) : ∃ fuel, (recurse_bytecode fuel m c).isSome := by
  induction h with
  | intro m hacc ih =>
    obtain ⟨f, hf⟩ := recurse_items_terminates c m.irbytecode
      (fun name target hmem hfind => ih target ⟨name, hmem, hfind⟩)
    exact ⟨f + 1, by rw [recurse_bytecode_succ]; exact hf⟩

theorem expandIR_leadsTo_none (c : Contract) (f : Nat) (next : MacroDefinition)
    (hnone : recurse_bytecode f next c = none) :
    ∀ (bs : List Byte) (name : String) (rest : List IRByte),
      c.find_macro_by_name name = some next →
      recurse_items f c
        (bs.map IRByte.Byte ++
          IRByte.Statement (Statement.MacroInvocation name) :: rest) = none := by
  intro bs
  induction bs with
  | nil =>
    intro name rest hfind
    rw [List.map_nil, List.nil_append]
    exact expandIR_inv_none _ c name rest next hfind hnone
  | cons b bs ih =>
    intro name rest hfind
    rw [List.map_cons, List.cons_append]
    show expandIR _ c (IRByte.Byte b :: _) = none
    rw [expandIR_byte]
    have := ih name rest hfind
    rw [show recurse_items f c
        (bs.map IRByte.Byte ++ IRByte.Statement (Statement.MacroInvocation name) :: rest) =
        expandIR (fun m => recurse_bytecode f m c) c
        (bs.map IRByte.Byte ++ IRByte.Statement (Statement.MacroInvocation name) :: rest)
      from rfl] at this
    rw [this]
    rfl

theorem cycle_diverges (c : Contract) (ms : List MacroDefinition)
    (hcyc : ∀ m ∈ ms, ∃ m' ∈ ms, leadsTo c m.irbytecode m') :
    ∀ (fuel : Nat), ∀ m ∈ ms, recurse_bytecode fuel m c = none := by
  intro fuel
  induction fuel with
  | zero => intro m _; rfl
  | succ f ih =>
    intro m hm
    obtain ⟨m', hm', bs, name, rest, heq, hfind⟩ := hcyc m hm
    rw [recurse_bytecode_succ, heq]
    exact expandIR_leadsTo_none c f m' (ih m' hm') bs name rest hfind

/-! ### Helper lemmas: concrete hex values -/

theorem fmtHex4_zero : fmtHex 4 0 = "0000" := by decide

theorem fmtHex4_one : fmtHex 4 1 = "0001" := by
  rw [fmtHex4_eq 1 (by norm_num)]
  try decide

theorem fmtHex4_thirteen : fmtHex 4 13 = "000d" := by
  rw [fmtHex4_eq 13 (by norm_num)]
  try decide

theorem fmtHex4_17 : fmtHex 4 17 = "0011" := by
  rw [fmtHex4_eq 17 (by norm_num)]
  try decide

theorem fmtHex4_214 : fmtHex 4 214 = "00d6" := by
  rw [fmtHex4_eq 214 (by norm_num)]
  try decide

theorem fmtHex4_65536 : fmtHex 4 65536 = "10000" := by
  have h1 : hexDigits 65536 = hexDigits 4096 ++ [hexDigit 0] := by
    rw [hexDigits_step 65536 (by norm_num)]
  have h2 : hexDigits 4096 = [hexDigit 1, hexDigit 0, hexDigit 0, hexDigit 0] := by
    rw [hexDigits_lt65536 4096 (by norm_num) (by norm_num)]
  simp only [fmtHex, natToHex, zeroPad, h1, h2]
  decide

theorem hexEncode_zero_byte : hexEncode [0] = "00" := by
  simp only [hexEncode, List.map_cons, List.map_nil, Nat.zero_mod]
  decide

theorem hexEncode_42 : hexEncode [42] = "2a" := by
  simp [hexEncode, fmtHex2_eq 42 (by norm_num)]
  decide

theorem hexEncode_beef : hexEncode [190, 239] = "beef" := by
  simp [hexEncode, fmtHex2_eq 190 (by norm_num), fmtHex2_eq 239 (by norm_num)]
  decide

/-! ### Claim C10 -/

/-- Claim C10 (amended): `churn` is total and never returns an error: for
every pair of input strings and every argument list it returns `Ok` with an
artifact whose deployable bytecode is the documented concatenation, with
byte lengths computed as the UTF-8 byte length of the hex string divided by
two (integer division, silently dropping a trailing half byte of odd-length
input; for hex/ASCII input the UTF-8 byte length coincides with the
character length). -/
theorem claim_C10_churn_total {Abi Token : Type} (enc : Token → List Nat)
    (cg : Codegen Abi) (args : List Token)
    (main_bytecode constructor_bytecode : String) :
    ∃ art, (churn enc cg args main_bytecode constructor_bytecode).2 = Except.ok art ∧
      art.bytecode = constructor_bytecode ++ "61" ++
        fmtHex 4 (main_bytecode.utf8ByteSize / 2) ++ "8061" ++
        fmtHex 4 (13 + constructor_bytecode.utf8ByteSize / 2) ++ "6000396000f3" ++
        main_bytecode ++ String.join (args.map (fun t => hexEncode (enc t))) ∧
      art.runtime = main_bytecode := by
  refine ⟨_, rfl, ?_, rfl⟩
  dsimp only
  simp only [List.map_map, String.append_assoc]
  rfl

/-- Claim C10 counterexample: the original claim computes byte lengths from
the *character* length of the string.  On the one-character, two-UTF-8-byte
runtime string `twoByteChar`, the code (which uses Rust's `str::len`, a
byte count) produces runtime size `0001`, not the `0000` that the character
count `1 / 2 = 0` would give, so the claimed bytecode differs from the
actual one. -/
theorem claim_C10_counterexample :
    ∃ art, (churn (fun _ : Unit => ([] : List Nat)) (Codegen.new : Codegen Unit) []
        twoByteChar "").2 = Except.ok art ∧
      art.bytecode ≠ "" ++ "61" ++ fmtHex 4 (twoByteChar.length / 2) ++ "8061" ++
        fmtHex 4 (13 + "".length / 2) ++ "6000396000f3" ++ twoByteChar ++
        String.join ([] : List String) := by
  refine ⟨_, rfl, ?_⟩
  have hlen : twoByteChar.length = 1 := rfl
  have hsize : twoByteChar.utf8ByteSize = 2 := rfl
  have hempty : ("" : String).utf8ByteSize = 0 := rfl
  dsimp only
  rw [hlen, hsize, hempty]
  norm_num
  rw [fmtHex4_one, fmtHex4_thirteen, fmtHex4_zero]
  decide

/-! ### Claim C1 -/

theorem churnOut_bytecode {Abi Token : Type} (enc : Token → List Nat) (cg : Codegen Abi)
    (args : List Token) (main_bytecode constructor_bytecode : String) :
    (churnOut enc cg args main_bytecode constructor_bytecode).bytecode =
      constructor_bytecode ++ "61" ++ fmtHex 4 (main_bytecode.utf8ByteSize / 2) ++
      "8061" ++ fmtHex 4 (13 + constructor_bytecode.utf8ByteSize / 2) ++ "6000396000f3" ++
      main_bytecode ++ String.join (args.map (fun t => hexEncode (enc t))) := rfl

theorem churnOut_runtime {Abi Token : Type} (enc : Token → List Nat) (cg : Codegen Abi)
    (args : List Token) (main_bytecode constructor_bytecode : String) :
    (churnOut enc cg args main_bytecode constructor_bytecode).runtime = main_bytecode := rfl

theorem churnOut_abi {Abi Token : Type} (enc : Token → List Nat) (cg : Codegen Abi)
    (args : List Token) (main_bytecode constructor_bytecode : String) :
    (churnOut enc cg args main_bytecode constructor_bytecode).abi =
      (cg.artifact.getD Artifact.default).abi := rfl

theorem churn_eq_result {Abi Token : Type} (enc : Token → List Nat) (cg : Codegen Abi)
    (args : List Token) (main_bytecode constructor_bytecode : String) :
    churn enc cg args main_bytecode constructor_bytecode =
      ({ cg with artifact := some (churnOut enc cg args main_bytecode constructor_bytecode) },
        Except.ok (churnOut enc cg args main_bytecode constructor_bytecode)) := by
  have hout : churnOut enc cg args main_bytecode constructor_bytecode =
      { bytecode := constructor_bytecode ++
          ("61" ++ fmtHex 4 (main_bytecode.utf8ByteSize / 2) ++ "8061" ++
            fmtHex 4 (13 + constructor_bytecode.utf8ByteSize / 2) ++ "6000396000f3") ++
          main_bytecode ++
          String.join ((args.map (fun tok => enc tok)).map (fun tok => hexEncode tok)),
        runtime := main_bytecode,
        abi := (cg.artifact.getD Artifact.default).abi } := by
    simp only [churnOut, List.map_map, String.append_assoc]
    rfl
  rw [hout]
  cases hart : cg.artifact with
  | none =>
    simp only [churn, hart]
    rfl
  | some a =>
    simp only [churn, hart]
    rfl

theorem hugeConstructor_length : hugeConstructor.length = 131046 := by
  rw [show hugeConstructor = String.mk (List.replicate 131046 '0') from rfl,
    String.length_mk, List.length_replicate]

theorem hugeConstructor_utf8 : hugeConstructor.utf8ByteSize = 131046 :=
  replicate_utf8ByteSize 131046

theorem hex4spec_length (n : Nat) : (hex4spec n).length = 4 := rfl

/-- Claim C1 (amended): for all hex-encoded inputs whose runtime byte length
is at most 65535 and whose constructor byte length is at most 65522 (so
that `13 + constructorLength` still fits in four hex digits), `churn` sets
the artifact's deployable bytecode to exactly
`constructorBytecode ++ "61" ++ sizeHex ++ "8061" ++ offsetHex ++
"6000396000f3" ++ runtimeBytecode ++ argsHex`, where `sizeHex` is the
runtime byte length (hex-string length divided by 2) and `offsetHex` is 13
plus the constructor byte length, each rendered as big-endian hex
zero-padded to exactly 4 hex digits (`hex4spec`), and `argsHex` is the
concatenation, in argument order, of the independently ABI-encoded
constructor arguments; the artifact's runtime field is set to the runtime
bytecode unchanged. -/
theorem claim_C1_churn_layout {Abi Token : Type} (enc : Token → List Nat)
    (cg : Codegen Abi) (args : List Token)
    (main_bytecode constructor_bytecode : String)
    (hmx : isHexString main_bytecode) (hcx : isHexString constructor_bytecode)
    (hm : main_bytecode.length / 2 ≤ 65535)
    (hc : constructor_bytecode.length / 2 ≤ 65522) :
    ∃ art, (churn enc cg args main_bytecode constructor_bytecode).2 = Except.ok art ∧
      art.bytecode = constructor_bytecode ++ "61" ++
        hex4spec (main_bytecode.length / 2) ++ "8061" ++
        hex4spec (13 + constructor_bytecode.length / 2) ++ "6000396000f3" ++
        main_bytecode ++ String.join (args.map (fun t => hexEncode (enc t))) ∧
      art.runtime = main_bytecode := by
  have hm8 := isHexString_utf8ByteSize main_bytecode hmx
  have hc8 := isHexString_utf8ByteSize constructor_bytecode hcx
  refine ⟨_, rfl, ?_, rfl⟩
  dsimp only
  rw [hm8, hc8, fmtHex4_eq (main_bytecode.length / 2) (by omega),
    fmtHex4_eq (13 + constructor_bytecode.length / 2) (by omega)]
  simp only [List.map_map, String.append_assoc]
  rfl

/-- Claim C1 counterexample: the original claim admits constructor byte
lengths up to 65535, but already at constructor byte length 65523 (the
hex-encoded all-zero string of 131046 characters, within the claimed
bound) the offset `13 + 65523 = 65536` no longer fits in four hex digits:
the code emits the five-digit `"10000"`, so the claimed bytecode — built
from offsets zero-padded to exactly four hex digits — differs from the
actual one. -/
theorem claim_C1_counterexample :
    isHexString hugeConstructor ∧ hugeConstructor.length / 2 ≤ 65535 ∧
    ∃ art, (churn (fun _ : Unit => ([] : List Nat)) (Codegen.new : Codegen Unit) []
        "" hugeConstructor).2 = Except.ok art ∧
      art.bytecode ≠ hugeConstructor ++ "61" ++ hex4spec (("" : String).length / 2) ++
        "8061" ++ hex4spec (13 + hugeConstructor.length / 2) ++ "6000396000f3" ++
        "" ++ String.join ([] : List String) := by
  refine ⟨replicate_zero_isHex 131046, ?_, churnOut (fun _ : Unit => ([] : List Nat))
    Codegen.new [] "" hugeConstructor, by rw [churn_eq_result], ?_⟩
  · rw [hugeConstructor_length]
    norm_num
  · intro h
    rw [churnOut_bytecode, hugeConstructor_utf8,
      show ("" : String).utf8ByteSize = 0 from rfl,
      show (0 : Nat) / 2 = 0 from rfl, show 13 + 131046 / 2 = 65536 from rfl,
      fmtHex4_zero, fmtHex4_65536] at h
    have hl := congrArg String.length h
    simp only [String.length_append] at hl
    rw [hugeConstructor_length, hex4spec_length, hex4spec_length,
      show ("" : String).length = 0 from rfl,
      show ("61" : String).length = 2 from rfl,
      show ("0000" : String).length = 4 from rfl,
      show ("8061" : String).length = 4 from rfl,
      show ("10000" : String).length = 5 from rfl,
      show ("6000396000f3" : String).length = 12 from rfl,
      show (String.join (List.map (fun t => hexEncode ((fun _ : Unit => ([] : List Nat)) t))
        ([] : List Unit))).length = 0 from rfl,
      show (String.join ([] : List String)).length = 0 from rfl] at hl
    omega

/-- Claim C1 witness: the amended layout theorem applied to the concrete
hex inputs `"aa"` (runtime, 1 byte) and `"33600055"` (constructor, 4
bytes), whose hypotheses all hold. -/
theorem claim_C1_witness :
    isHexString "aa" ∧ isHexString "33600055" ∧
    ("aa" : String).length / 2 ≤ 65535 ∧ ("33600055" : String).length / 2 ≤ 65522 ∧
    ∃ art, (churn (fun _ : Unit => ([] : List Nat)) (Codegen.new : Codegen Unit) []
        "aa" "33600055").2 = Except.ok art ∧
      art.bytecode = "33600055" ++ "61" ++ hex4spec (("aa" : String).length / 2) ++
        "8061" ++ hex4spec (13 + ("33600055" : String).length / 2) ++ "6000396000f3" ++
        "aa" ++ String.join (([] : List Unit).map (fun t => hexEncode ([] : List Nat))) ∧
      art.runtime = "aa" :=
  ⟨by decide, by decide, by decide, by decide,
    claim_C1_churn_layout (fun _ : Unit => ([] : List Nat)) Codegen.new [] "aa" "33600055"
      (by decide) (by decide) (by decide) (by decide)⟩

/-! ### Claim C5 -/

theorem runtime428_length : runtime428.length = 428 := by
  rw [show runtime428 = String.mk (List.replicate 428 '0') from rfl,
    String.length_mk, List.length_replicate]

theorem runtime428_utf8 : runtime428.utf8ByteSize = 428 :=
  replicate_utf8ByteSize 428

/-- Claim C5 (amended): for constructor bytecode `"33600055"` (4 bytes) and
any hex-encoded runtime bytecode of 214 bytes (428 hex chars), `churn`
computes `offsetHex = "0011"` and `sizeHex = "00d6"` and produces exactly
the bootstrap sequence `"6100d6806100116000396000f3"` — that is,
`"61" ++ "00d6" ++ "8061" ++ "0011" ++ "6000396000f3"`.  (The spec's
fixture string `"6100d680116000396000f3"` drops the `"61"` of the
`"8061" ++ offsetHex` template.) -/
theorem claim_C5_fixture {Abi : Type} (cg : Codegen Abi) (main_bytecode : String)
    (hmx : isHexString main_bytecode) (hlen : main_bytecode.length = 428) :
    fmtHex 4 214 = "00d6" ∧ fmtHex 4 17 = "0011" ∧
    ∃ art, (churn (fun _ : Unit => ([] : List Nat)) cg [] main_bytecode
        "33600055").2 = Except.ok art ∧
      art.bytecode = "33600055" ++ "6100d6806100116000396000f3" ++ main_bytecode ∧
      art.runtime = main_bytecode := by
  have h8 : main_bytecode.utf8ByteSize = 428 := by
    rw [isHexString_utf8ByteSize main_bytecode hmx, hlen]
  refine ⟨fmtHex4_214, fmtHex4_17, churnOut (fun _ : Unit => ([] : List Nat)) cg []
    main_bytecode "33600055", by rw [churn_eq_result], ?_, churnOut_runtime _ _ _ _ _⟩
  rw [churnOut_bytecode, h8, show ("33600055" : String).utf8ByteSize = 8 from rfl,
    show (428 : Nat) / 2 = 214 from rfl, show 13 + 8 / 2 = 17 from rfl,
    fmtHex4_214, fmtHex4_17,
    show String.join (List.map (fun t => hexEncode ((fun _ : Unit => ([] : List Nat)) t))
      ([] : List Unit)) = "" from rfl, String.append_empty,
    show ("33600055" : String) ++ "61" ++ "00d6" ++ "8061" ++ "0011" ++ "6000396000f3" =
      "33600055" ++ "6100d6806100116000396000f3" from by decide]

/-- Claim C5 counterexample: on the concrete 428-hex-character runtime
`runtime428`, the bytecode produced by `churn` does not match the spec's
fixture formula built from the bootstrap string `"6100d680116000396000f3"`:
that string is missing the `"61"` byte of the `"8061" ++ offsetHex`
template, so its length is off by two. -/
theorem claim_C5_counterexample :
    isHexString runtime428 ∧ runtime428.length = 428 ∧
    ∃ art, (churn (fun _ : Unit => ([] : List Nat)) (Codegen.new : Codegen Unit) []
        runtime428 "33600055").2 = Except.ok art ∧
      art.bytecode ≠ "33600055" ++ "6100d680116000396000f3" ++ runtime428 := by
  refine ⟨replicate_zero_isHex 428, runtime428_length,
    churnOut (fun _ : Unit => ([] : List Nat)) Codegen.new [] runtime428 "33600055",
    by rw [churn_eq_result], ?_⟩
  intro h
  rw [churnOut_bytecode, runtime428_utf8,
    show ("33600055" : String).utf8ByteSize = 8 from rfl,
    show (428 : Nat) / 2 = 214 from rfl, show 13 + 8 / 2 = 17 from rfl,
    fmtHex4_214, fmtHex4_17] at h
  have hl := congrArg String.length h
  simp only [String.length_append] at hl
  rw [runtime428_length, show ("33600055" : String).length = 8 from rfl,
    show ("61" : String).length = 2 from rfl,
    show ("00d6" : String).length = 4 from rfl,
    show ("8061" : String).length = 4 from rfl,
    show ("0011" : String).length = 4 from rfl,
    show ("6000396000f3" : String).length = 12 from rfl,
    show ("6100d680116000396000f3" : String).length = 22 from rfl,
    show (String.join (List.map (fun t => hexEncode ((fun _ : Unit => ([] : List Nat)) t))
      ([] : List Unit))).length = 0 from rfl] at hl
  omega

/-- Claim C5 witness: the amended fixture theorem applied at the concrete
428-character hex runtime `runtime428`. -/
theorem claim_C5_witness :
    isHexString runtime428 ∧ runtime428.length = 428 ∧
    (fmtHex 4 214 = "00d6" ∧ fmtHex 4 17 = "0011" ∧
    ∃ art, (churn (fun _ : Unit => ([] : List Nat)) (Codegen.new : Codegen Unit) []
        runtime428 "33600055").2 = Except.ok art ∧
      art.bytecode = "33600055" ++ "6100d6806100116000396000f3" ++ runtime428 ∧
      art.runtime = runtime428) :=
  ⟨replicate_zero_isHex 428, runtime428_length,
    claim_C5_fixture Codegen.new runtime428 (replicate_zero_isHex 428) runtime428_length⟩

/-! ### Claims C8 and C9 -/

/-- Claim C8: artifact updates are frame-preserving per operation: `churn`
writes only the artifact's bytecode and runtime fields and leaves the abi
field unchanged (creating a default artifact first if none exists, whose
abi is `none`), and `abigen` writes only the abi field and leaves the
bytecode and runtime fields unchanged (creating the artifact if absent).
Neither call touches the other `Codegen` fields. -/
theorem claim_C8_frame_preservation {Abi Token : Type} (enc : Token → List Nat)
    (cg : Codegen Abi) (args : List Token)
    (main_bytecode constructor_bytecode : String)
    (toAbi : Contract → Abi) (serialize : Artifact Abi → String)
    (ast : Contract) (output : Option String) :
    (∃ art, (churn enc cg args main_bytecode constructor_bytecode).1.artifact = some art ∧
      art.abi = (cg.artifact.getD Artifact.default).abi) ∧
    (churn enc cg args main_bytecode constructor_bytecode).1.ast = cg.ast ∧
    (churn enc cg args main_bytecode constructor_bytecode).1.main_bytecode =
      cg.main_bytecode ∧
    (churn enc cg args main_bytecode constructor_bytecode).1.constructor_bytecode =
      cg.constructor_bytecode ∧
    (∃ art2, (abigen toAbi serialize cg ast output).1.artifact = some art2 ∧
      art2.abi = some (toAbi ast) ∧
      art2.bytecode = (cg.artifact.getD Artifact.default).bytecode ∧
      art2.runtime = (cg.artifact.getD Artifact.default).runtime) ∧
    (abigen toAbi serialize cg ast output).1.ast = cg.ast ∧
    (abigen toAbi serialize cg ast output).1.main_bytecode = cg.main_bytecode ∧
    (abigen toAbi serialize cg ast output).1.constructor_bytecode =
      cg.constructor_bytecode := by
  refine ⟨⟨churnOut enc cg args main_bytecode constructor_bytecode,
      by rw [churn_eq_result], churnOut_abi enc cg args main_bytecode constructor_bytecode⟩,
    by rw [churn_eq_result], by rw [churn_eq_result], by rw [churn_eq_result],
    ?_, ?_, ?_, ?_⟩
  · cases hart : cg.artifact with
    | none =>
      exact ⟨{ (Artifact.default : Artifact Abi) with abi := some (toAbi ast) },
        by simp only [abigen, hart], rfl, rfl, rfl⟩
    | some a =>
      exact ⟨{ a with abi := some (toAbi ast) },
        by simp only [abigen, hart], rfl, rfl, rfl⟩
  · cases hart : cg.artifact with
    | none => simp only [abigen, hart]
    | some a => simp only [abigen, hart]
  · cases hart : cg.artifact with
    | none => simp only [abigen, hart]
    | some a => simp only [abigen, hart]
  · cases hart : cg.artifact with
    | none => simp only [abigen, hart]
    | some a => simp only [abigen, hart]

/-- Claim C9: if `export` is called when no artifact has been created, it
performs no write (the write component is `none`) and still returns
success (`Ok`), not an error. -/
theorem claim_C9_export_noop {Abi : Type} (serialize : Artifact Abi → String)
    (cg : Codegen Abi) (h : cg.artifact = none) :
    exportArtifact serialize cg = (none, Except.ok ()) := by
  simp only [exportArtifact, h]

/-- Claim C9 witness: the no-op export theorem applied to a fresh `Codegen`
(which has no artifact). -/
theorem claim_C9_witness :
    (Codegen.new : Codegen Unit).artifact = none ∧
    exportArtifact (fun _ => "") (Codegen.new : Codegen Unit) =
      (none, Except.ok ()) :=
  ⟨rfl, claim_C9_export_noop (fun _ => "") Codegen.new rfl⟩

/-! ### Claims C2, C3, C4, C6 -/

/-- Claim C2: for every macro whose IR sequence is `[byteA, invoke M,
byteB]`, where `M` is defined in the tree and its expansion succeeds (at
fuel `f`), `recurse_bytecode` returns exactly
`[byteA] ++ expand M ++ [byteB]`: items are emitted in IR declaration order
and an invoked macro's entire output is inlined in place, never
reordered. -/
theorem claim_C2_order_preservation (c : Contract)
    (macro_def target : MacroDefinition) (byteA byteB : Byte) (mname : String)
    (f : Nat) (mbytes : List Byte)
    (hir : macro_def.irbytecode = [IRByte.Byte byteA,
      IRByte.Statement (Statement.MacroInvocation mname), IRByte.Byte byteB])
    (hfind : c.find_macro_by_name mname = some target)
    (hexp : recurse_bytecode f target c = some (Except.ok mbytes)) :
    recurse_bytecode (f + 1) macro_def c =
      some (Except.ok ([byteA] ++ mbytes ++ [byteB])) := by
  rw [recurse_bytecode_succ, hir]
  simp only [recurse_items]
  rw [expandIR_byte]
  rw [expandIR_inv_ok _ c mname [IRByte.Byte byteB] target mbytes hfind hexp]
  rw [expandIR_byte, expandIR_nil]
  rfl

/-- Claim C2 witness: the order-preservation theorem applied to the
concrete tree `fixTree`, whose macro `A` is `[aa, invoke M, bb]` and whose
macro `M` expands to `[01]`. -/
theorem claim_C2_witness :
    fixCaller.irbytecode = [IRByte.Byte ⟨"aa"⟩,
      IRByte.Statement (Statement.MacroInvocation "M"), IRByte.Byte ⟨"bb"⟩] ∧
    fixTree.find_macro_by_name "M" = some fixTarget ∧
    recurse_bytecode 1 fixTarget fixTree = some (Except.ok [⟨"01"⟩]) ∧
    recurse_bytecode 2 fixCaller fixTree =
      some (Except.ok ([⟨"aa"⟩] ++ [⟨"01"⟩] ++ [⟨"bb"⟩])) :=
  ⟨rfl, rfl, rfl,
    claim_C2_order_preservation fixTree fixCaller fixTarget ⟨"aa"⟩ ⟨"bb"⟩ "M" 1
      [⟨"01"⟩] rfl rfl rfl⟩

/-- Claim C3: for every constant reference resolving to a literal of byte
length `n` with `1 ≤ n ≤ 32`, expansion appends a push encoding whose
opcode byte is `0x5F + n` (rendered as its two hex digits) followed by the
literal's own hex bytes at minimal width; concretely, the one-byte literal
`0x2a` encodes as `"602a"` and the two-byte literal `0xBEEF` as
`"61beef"`. -/
theorem claim_C3_literal_push :
    (∀ (f : Nat) (c : Contract) (name : String) (rest : List IRByte)
      (cd : ConstantDefinition) (l : List Nat),
      (c.constants.filter (fun const_def => const_def.name == name)).head? = some cd →
      cd.value = ConstVal.Literal l → 1 ≤ l.length → l.length ≤ 32 →
      recurse_items f c (IRByte.Constant name :: rest) =
        (recurse_items f c rest).map (fun r => r.map (fun bs =>
          Byte.mk (String.mk [hexDigit ((95 + l.length) / 16),
            hexDigit ((95 + l.length) % 16)] ++ hexEncode l) :: bs))) ∧
    recurse_items 0 constTree [IRByte.Constant "ANSWER"] =
      some (Except.ok [Byte.mk "602a"]) ∧
    recurse_items 0 constTree [IRByte.Constant "COW"] =
      some (Except.ok [Byte.mk "61beef"]) := by
  have e42 : fmtHex 2 (95 + (hexEncode [42]).utf8ByteSize / 2) ++ hexEncode [42] =
      "602a" := by
    rw [hexEncode_42, show ("2a" : String).utf8ByteSize = 2 from rfl,
      show 95 + 2 / 2 = 96 from rfl, fmtHex2_eq 96 (by norm_num)]
    decide
  have ebeef : fmtHex 2 (95 + (hexEncode [190, 239]).utf8ByteSize / 2) ++
      hexEncode [190, 239] = "61beef" := by
    rw [hexEncode_beef, show ("beef" : String).utf8ByteSize = 4 from rfl,
      show 95 + 4 / 2 = 97 from rfl, fmtHex2_eq 97 (by norm_num)]
    decide
  refine ⟨?_, ?_, ?_⟩
  · intro f c name rest cd l hlook hv h1 h32
    simp only [recurse_items]
    rw [expandIR_constant_literal _ c name rest cd l hlook hv]
    have hu : (hexEncode l).utf8ByteSize = 2 * l.length := hexEncode_utf8ByteSize l
    have hd : 95 + 2 * l.length / 2 = 95 + l.length := by omega
    simp only [hu, hd, fmtHex2_eq (95 + l.length) (by omega)]
  · simp only [recurse_items]
    rw [expandIR_constant_literal _ constTree "ANSWER" []
      ⟨"ANSWER", ConstVal.Literal [42]⟩ [42] rfl rfl]
    simp only [e42]
    rfl
  · simp only [recurse_items]
    rw [expandIR_constant_literal _ constTree "COW" []
      ⟨"COW", ConstVal.Literal [190, 239]⟩ [190, 239] rfl rfl]
    simp only [ebeef]
    rfl

/-- Claim C3 witness: the general push-encoding statement applied to the
concrete one-byte constant `0x2a` of `constTree`. -/
theorem claim_C3_witness :
    (constTree.constants.filter
      (fun const_def => const_def.name == "ANSWER")).head? =
        some ⟨"ANSWER", ConstVal.Literal [42]⟩ ∧
    recurse_items 3 constTree [IRByte.Constant "ANSWER"] =
      (recurse_items 3 constTree []).map (fun r => r.map (fun bs =>
        Byte.mk (String.mk [hexDigit ((95 + 1) / 16), hexDigit ((95 + 1) % 16)] ++
          hexEncode [42]) :: bs)) :=
  ⟨rfl, claim_C3_literal_push.1 3 constTree "ANSWER" []
    ⟨"ANSWER", ConstVal.Literal [42]⟩ [42] rfl rfl (by norm_num) (by norm_num)⟩

/-- Claim C4: expansion classifies failures and returns immediately
regardless of the remaining items: an unresolvable constant reference fails
with `MissingConstantDefinition`; an invocation naming a macro absent from
the tree fails with `MissingMacroDefinition`; and an invoked macro that
exists but whose own recursive expansion fails makes the outer expansion
fail with `FailedMacroRecursion`. -/
theorem claim_C4_error_classification :
    (∀ (f : Nat) (c : Contract) (name : String) (rest : List IRByte),
      (c.constants.filter (fun const_def => const_def.name == name)).head? = none →
      recurse_items f c (IRByte.Constant name :: rest) =
        some (Except.error CodegenErrorKind.MissingConstantDefinition)) ∧
    (∀ (f : Nat) (c : Contract) (mname : String) (rest : List IRByte),
      c.find_macro_by_name mname = none →
      recurse_items f c (IRByte.Statement (Statement.MacroInvocation mname) :: rest) =
        some (Except.error CodegenErrorKind.MissingMacroDefinition)) ∧
    (∀ (f : Nat) (c : Contract) (mname : String) (rest : List IRByte)
      ( target : MacroDefinition) (e : CodegenErrorKind),
      c.find_macro_by_name mname = some target →
      recurse_bytecode f target c = some (Except.error e) →
      recurse_items f c (IRByte.Statement (Statement.MacroInvocation mname) :: rest) =
        some (Except.error CodegenErrorKind.FailedMacroRecursion)) := by
  refine ⟨?_, ?_, ?_⟩
  · intro f c name rest hlook
    simp only [recurse_items]
    exact expandIR_constant_missing _ c name rest hlook
  · intro f c mname rest hfind
    simp only [recurse_items]
    exact expandIR_inv_missing _ c mname rest hfind
  · intro f c mname rest target e hfind hfail
    simp only [recurse_items]
    exact expandIR_inv_error _ c mname rest target e hfind hfail

/-- Claim C4 witness: the three error classifications at concrete inputs —
an undefined constant and an undefined macro in the empty tree, and the
macro `T` of `badStmtTree` whose own expansion fails with
`InvalidMacroStatement`, surfacing outside as `FailedMacroRecursion`. -/
theorem claim_C4_witness :
    ((Contract.mk [] []).constants.filter
      (fun const_def => const_def.name == "NOPE")).head? = none ∧
    (Contract.mk [] []).find_macro_by_name "NOPE" = none ∧
    badStmtTree.find_macro_by_name "T" = some badStmtDef ∧
    recurse_bytecode 1 badStmtDef badStmtTree =
      some (Except.error CodegenErrorKind.InvalidMacroStatement) ∧
    recurse_items 0 (Contract.mk [] []) [IRByte.Constant "NOPE"] =
      some (Except.error CodegenErrorKind.MissingConstantDefinition) ∧
    recurse_items 0 (Contract.mk [] [])
      [IRByte.Statement (Statement.MacroInvocation "NOPE")] =
      some (Except.error CodegenErrorKind.MissingMacroDefinition) ∧
    recurse_items 1 badStmtTree
      [IRByte.Statement (Statement.MacroInvocation "T")] =
      some (Except.error CodegenErrorKind.FailedMacroRecursion) :=
  ⟨rfl, rfl, rfl, rfl,
    claim_C4_error_classification.1 0 (Contract.mk [] []) "NOPE" [] rfl,
    claim_C4_error_classification.2.1 0 (Contract.mk [] []) "NOPE" [] rfl,
    claim_C4_error_classification.2.2 1 badStmtTree "T" [] badStmtDef
      CodegenErrorKind.InvalidMacroStatement rfl rfl⟩

/-- Claim C6: every constant reference that resolves to a
`FreeStoragePointer` — regardless of the constant's declaration order or
position in the tree — expands to exactly the push bytes `"6000"` (a
one-byte push of offset 0). -/
theorem claim_C6_fsp_push (f : Nat) (c : Contract) (name : String)
    (rest : List IRByte) (cd : ConstantDefinition)
    (hlook : (c.constants.filter (fun const_def => const_def.name == name)).head? =
      some cd)
    (hv : cd.value = ConstVal.FreeStoragePointer) :
    recurse_items f c (IRByte.Constant name :: rest) =
      (recurse_items f c rest).map (fun r => r.map (fun bs =>
        Byte.mk "6000" :: bs)) := by
  simp only [recurse_items]
  rw [expandIR_constant_fsp _ c name rest cd hlook hv]
  have e0 : fmtHex 2 (95 + (hexEncode [0]).utf8ByteSize / 2) ++ hexEncode [0] =
      "6000" := by
    rw [hexEncode_zero_byte, show ("00" : String).utf8ByteSize = 2 from rfl,
      show 95 + 2 / 2 = 96 from rfl, fmtHex2_eq 96 (by norm_num)]
    decide
  simp only [e0]

/-- Claim C6 witness: the free-storage-pointer theorem applied to the
constant `P` of `fspTree`, which is declared second in the tree. -/
theorem claim_C6_witness :
    (fspTree.constants.filter (fun const_def => const_def.name == "P")).head? =
      some ⟨"P", ConstVal.FreeStoragePointer⟩ ∧
    recurse_items 2 fspTree [IRByte.Constant "P"] =
      (recurse_items 2 fspTree []).map (fun r => r.map (fun bs =>
        Byte.mk "6000" :: bs)) :=
  ⟨rfl, claim_C6_fsp_push 2 fspTree "P" [] ⟨"P", ConstVal.FreeStoragePointer⟩ rfl rfl⟩

/-! ### Claim C7 -/

/-- Claim C7 (amended): macro expansion has no cycle detection and no
memoization.  `recurse_bytecode` terminates (some fuel yields a result) for
every macro that is accessible under the invocation relation of the tree —
i.e. whose reachable macro-invocation graph is acyclic.  Conversely, for a
set of macros each of which, after raw byte items only, invokes another
macro of the set (in particular two macros whose mutual invocations are
preceded only by raw bytes), the recursion is unbounded and expansion has
no result at any fuel.  (If an item *before* the cyclic invocation fails,
expansion instead returns that error; see the counterexample.) -/
theorem claim_C7_termination_divergence :
    (∀ (c : Contract) (m : MacroDefinition), Acc (invokesIn c) m →
      ∃ fuel, (recurse_bytecode fuel m c).isSome) ∧
    (∀ (c : Contract) (ms : List MacroDefinition),
      (∀ m ∈ ms, ∃ m' ∈ ms, leadsTo c m.irbytecode m') →
      ∀ (fuel : Nat), ∀ m ∈ ms, recurse_bytecode fuel m c = none) :=
  ⟨fun c m h => recurse_terminates_of_acc c m h,
    fun c ms h fuel m hm => cycle_diverges c ms h fuel m hm⟩

/-- Claim C7 counterexample: macros `A` and `B` of `guardedCycTree` invoke
each other directly (each body contains an invocation of the other, and
both resolve in the tree), yet the expansion of `A` *does* have a result:
`A` first invokes the missing macro `NONE`, so expansion returns
`MissingMacroDefinition` at every positive fuel instead of recursing
without bound. -/
theorem claim_C7_counterexample :
    guardedCycTree.find_macro_by_name "B" = some guardedCycB ∧
    guardedCycTree.find_macro_by_name "A" = some guardedCycA ∧
    IRByte.Statement (Statement.MacroInvocation "B") ∈ guardedCycA.irbytecode ∧
    IRByte.Statement (Statement.MacroInvocation "A") ∈ guardedCycB.irbytecode ∧
    ∀ (f : Nat), recurse_bytecode (f + 1) guardedCycA guardedCycTree =
      some (Except.error CodegenErrorKind.MissingMacroDefinition) := by
  refine ⟨rfl, rfl, ?_, ?_, fun f => rfl⟩
  · show _ ∈ [IRByte.Statement (Statement.MacroInvocation "NONE"),
      IRByte.Statement (Statement.MacroInvocation "B")]
    exact List.mem_cons_of_mem _ (List.mem_cons_self _ _)
  · show _ ∈ [IRByte.Statement (Statement.MacroInvocation "A")]
    exact List.mem_cons_self _ _

/-- Claim C7 witness: the amended theorem applied to (a) the invocation-free
macro `M` of `fixTree`, which is accessible, so its expansion terminates,
and (b) the pure two-cycle `P ↔ Q` of `pureCycTree`, whose expansion has no
result at any fuel. -/
theorem claim_C7_witness :
    (∃ fuel, (recurse_bytecode fuel fixTarget fixTree).isSome) ∧
    (∀ (fuel : Nat), recurse_bytecode fuel pureCycP pureCycTree = none) := by
  constructor
  · refine claim_C7_termination_divergence.1 fixTree fixTarget ?_
    refine Acc.intro _ (fun m' h => absurd h ?_)
    rintro ⟨name, hmem, hfind⟩
    simp [fixTarget] at hmem
  · refine fun fuel => claim_C7_termination_divergence.2 pureCycTree
      [pureCycP, pureCycQ] ?_ fuel pureCycP (List.mem_cons_self _ _)
    intro m hm
    rcases List.mem_cons.mp hm with hp | hq
    · refine ⟨pureCycQ, by simp, ?_⟩
      rw [hp]
      exact ⟨[], "Q", [], rfl, rfl⟩
    · rw [List.mem_singleton.mp hq]
      refine ⟨pureCycP, by simp, ?_⟩
      exact ⟨[⟨"60"⟩], "P", [], rfl, rfl⟩

end Huff
